import Mathlib

/-!
Verification development for the uk101re emulator core
(6502 CPU interpreter, memory-mapped bus, MC6850 ACIA).

The definitions below are a shallow embedding of the C sources
`cpu6502.c`, `motherboard.c` and `mc6850.c`.  The C module-level
mutable variables become fields of a `Machine` record that is threaded
explicitly.  Machine integers are `Nat` with explicit masking / `% 2^w`
where the C code relies on fixed-width wraparound.  The external
terminal collaborators (`check_keyboard_ready`, `read_keyboard`,
`write_terminal` from `terminal.c`) are modelled as oracles stored in
the state: `kbdReady` is the value the readiness predicate currently
reports, `kbd` is the stream of bytes successive `read_keyboard` calls
return, and `termOut` accumulates the bytes handed to the terminal
sink.  The C flag variables hold byte values used only for their
truthiness, so they are embedded as `Bool`.  A diagnostic printed by
`illegal_opcode` is recorded in the `diag` list as the pair
(opcode, PC at fetch).
-/

namespace UK101

/-- MC6850 ACIA registers (file-scope statics of `mc6850.c`). -/
structure MC6850 where
  TDR : Nat
  RDR : Nat
  CR : Nat
  SR : Nat
deriving Repr, DecidableEq

/-- `mc6850_reset` from `mc6850.c`. -/
def mc6850_reset : MC6850 :=
  { TDR := 0x00, RDR := 0x00, CR := 0x00, SR := 0x0E }

/-- `mc6850_readbyte` from `mc6850.c`.  The two external keyboard calls
are passed in as oracle values: `kbdReady` is what
`check_keyboard_ready()` returns, `kbdByte` what `read_keyboard()`
would return.  The extra `Bool` in the result records whether
`read_keyboard()` was actually called (so the caller can consume the
oracle stream). -/
def mc6850_readbyte (kbdReady : Bool) (kbdByte : Nat) (s : MC6850) (address : Nat) :
    Nat × MC6850 × Bool :=
  if address &&& 0x0800 = 0 then
    if address &&& 0x0001 = 0 then
      let SR' := if kbdReady then s.SR ||| 0x01 else s.SR
      (SR', { s with SR := SR' }, false)
    else
      (kbdByte, { s with RDR := kbdByte, SR := s.SR &&& 0xFE }, true)
  else
    (0xFF, s, false)

/-- `mc6850_writebyte` from `mc6850.c`.  The optional `Nat` in the
result is the byte forwarded to `write_terminal`, if any. -/
def mc6850_writebyte (s : MC6850) (address data : Nat) : MC6850 × Option Nat :=
  if address &&& 0x0800 = 0 then
    if address &&& 0x0001 = 0 then
      ({ s with CR := data }, none)
    else
      ({ s with SR := s.SR ||| 0x02 }, some data)
  else
    (s, none)

/-- The whole machine: 6502 registers and flags (file-scope statics of
`cpu6502.c`), RAM/ROM arrays of `motherboard.c`, the ACIA, and the
external-world oracles. -/
structure Machine where
  A : Nat
  X : Nat
  Y : Nat
  SP : Nat
  PC : Nat
  N_Flag : Bool
  V_Flag : Bool
  D_Flag : Bool
  I_Flag : Bool
  Z_Flag : Bool
  C_Flag : Bool
  cycles : Nat
  IRQ_PIN_LEVEL : Nat
  RAM : Nat → Nat
  ROM : Nat → Nat
  acia : MC6850
  kbdReady : Bool
  kbd : List Nat
  termOut : List Nat
  diag : List (Nat × Nat)

/-- `motherboard_readbyte` from `motherboard.c`: the address decoder.
ACIA reads can mutate the ACIA registers and consume a keyboard byte,
so the machine is threaded through. -/
def motherboard_readbyte (m : Machine) (address : Nat) : Nat × Machine :=
  if address ≤ 0x7FFF then
    (m.RAM (address &&& 0x7FFF), m)
  else if address ≤ 0xEFFF then
    (m.ROM (address &&& 0x7FFF), m)
  else if address ≤ 0xF7FF then
    let r := mc6850_readbyte m.kbdReady (m.kbd.headD 0) m.acia address
    (r.1, { m with acia := r.2.1, kbd := if r.2.2 then m.kbd.tail else m.kbd })
  else if address ≤ 0xFFFF then
    (m.ROM (address &&& 0x7FFF), m)
  else
    (0xFF, m)

/-- `motherboard_writebyte` from `motherboard.c`. -/
def motherboard_writebyte (m : Machine) (address data : Nat) : Machine :=
  if address ≤ 0x7FFF then
    { m with RAM := fun a => if a = address &&& 0x7FFF then data else m.RAM a }
  else if address ≤ 0xEFFF then
    m
  else if address ≤ 0xF7FF then
    let r := mc6850_writebyte m.acia address data
    { m with acia := r.1,
             termOut := match r.2 with
                        | some b => m.termOut ++ [b]
                        | none => m.termOut }
  else if address ≤ 0xFFFF then
    m
  else
    m

/-- `motherboard_reset` resets the ACIA. -/
def motherboard_reset_acia (m : Machine) : Machine :=
  { m with acia := mc6850_reset }

-- Interrupt vectors (cpu6502.c)
def IRQ_VECTOR : Nat := 0xFFFE
def RST_VECTOR : Nat := 0xFFFC
def NMI_VECTOR : Nat := 0xFFFA

def B_Flag_Mask : Nat := 0x10

/-- `set_P`: split a byte into the status flags. -/
def set_P (m : Machine) (data : Nat) : Machine :=
  { m with N_Flag := decide (data &&& 0x80 ≠ 0),
           V_Flag := decide (data &&& 0x40 ≠ 0),
           D_Flag := decide (data &&& 0x08 ≠ 0),
           I_Flag := decide (data &&& 0x04 ≠ 0),
           Z_Flag := decide (data &&& 0x02 ≠ 0),
           C_Flag := decide (data &&& 0x01 ≠ 0) }

/-- `get_P`: assemble the status register into a byte (bit 5 always
set, bit 4 never set here). -/
def get_P (m : Machine) : Nat :=
  (((((0x20 ||| (if m.N_Flag then 0x80 else 0)) ||| (if m.V_Flag then 0x40 else 0)) |||
    (if m.D_Flag then 0x08 else 0)) ||| (if m.I_Flag then 0x04 else 0)) |||
    (if m.Z_Flag then 0x02 else 0)) ||| (if m.C_Flag then 0x01 else 0)

/-- `word`: compose a 16-bit word from two bytes. -/
def word (high low : Nat) : Nat :=
  (high <<< 8) ||| low

/-- `read_byte` in `cpu6502.c` (goes through the motherboard). -/
def read_byte (m : Machine) (address : Nat) : Nat × Machine :=
  motherboard_readbyte m address

/-- `write_byte` in `cpu6502.c`. -/
def write_byte (m : Machine) (address data : Nat) : Machine :=
  motherboard_writebyte m address data

/-- `read_word`: little-endian 16-bit read (the C `address++` is a
`uint16_t` increment, hence the wrap). -/
def read_word (m : Machine) (address : Nat) : Nat × Machine :=
  let lo := read_byte m address
  let hi := read_byte lo.2 ((address + 1) % 65536)
  (word hi.1 lo.1, hi.2)

/-- `fetch`: read a byte at PC and advance PC (uint16 wrap). -/
def fetch (m : Machine) : Nat × Machine :=
  let r := read_byte m m.PC
  (r.1, { r.2 with PC := (m.PC + 1) % 65536 })

/-- `fetch16`: little-endian operand word. -/
def fetch16 (m : Machine) : Nat × Machine :=
  let lo := fetch m
  let hi := fetch lo.2
  (word hi.1 lo.1, hi.2)

/-- `update_NZ`. -/
def update_NZ (m : Machine) (data : Nat) : Machine :=
  { m with N_Flag := decide (data &&& 0x80 ≠ 0), Z_Flag := decide (data = 0) }

/-- `push`: write at `0x0100 | SP` then decrement SP (uint8 wrap). -/
def push (m : Machine) (data : Nat) : Machine :=
  let m1 := write_byte m (0x0100 ||| m.SP) data
  { m1 with SP := (m1.SP + 255) % 256 }

/-- `pop`: increment SP (uint8 wrap) then read at `0x0100 | SP`. -/
def pop (m : Machine) : Nat × Machine :=
  let sp' := (m.SP + 1) % 256
  read_byte { m with SP := sp' } (0x0100 ||| sp')

/-- `push16`: high byte first, then low byte. -/
def push16 (m : Machine) (data : Nat) : Machine :=
  push (push m ((data >>> 8) &&& 0xFF)) (data &&& 0xFF)

/-- `pop16`: low byte first, then high byte. -/
def pop16 (m : Machine) : Nat × Machine :=
  let lo := pop m
  let hi := pop lo.2
  (word hi.1 lo.1, hi.2)

/-- `compare`: update C, Z, N from a comparison.  In C the flags come
from the `int` difference `a - b`; for byte operands its low eight
bits are `(a + 256 - b) % 256` and it is zero exactly when `a = b`. -/
def compare (m : Machine) (a b : Nat) : Machine :=
  { m with C_Flag := decide (b ≤ a),
           Z_Flag := decide (a = b),
           N_Flag := decide ((a + 256 - b) % 256 &&& 0x80 ≠ 0) }

/-- `do_irq`: push PC, push the packed status byte, set I, load PC from
the vector, add 7 cycles. -/
def do_irq (m : Machine) (vector : Nat) : Machine :=
  let m1 := push16 m m.PC
  let m2 := push m1 (get_P m1)
  let m3 := { m2 with I_Flag := true }
  let r := read_word m3 vector
  { r.2 with PC := r.1, cycles := r.2.cycles + 7 }

-- Addressing modes (cpu6502.c).  Each returns the effective address
-- together with the machine after any operand fetches / penalty cycles.

/-- Absolute. -/
def absolute (m : Machine) : Nat × Machine :=
  fetch16 m

/-- Absolute,X (uint16 wrap of the addition). -/
def absoluteX (m : Machine) : Nat × Machine :=
  let r := fetch16 m
  ((r.1 + r.2.X) % 65536, r.2)

/-- Absolute,X adding 1 cycle if a page boundary is crossed. -/
def absoluteX_1 (m : Machine) : Nat × Machine :=
  let r := fetch16 m
  let e_address := (r.1 + r.2.X) % 65536
  (e_address,
    if r.1 &&& 0xFF00 ≠ e_address &&& 0xFF00 then
      { r.2 with cycles := r.2.cycles + 1 }
    else r.2)

/-- Absolute,Y. -/
def absoluteY (m : Machine) : Nat × Machine :=
  let r := fetch16 m
  ((r.1 + r.2.Y) % 65536, r.2)

/-- Absolute,Y adding 1 cycle if a page boundary is crossed. -/
def absoluteY_1 (m : Machine) : Nat × Machine :=
  let r := fetch16 m
  let e_address := (r.1 + r.2.Y) % 65536
  (e_address,
    if r.1 &&& 0xFF00 ≠ e_address &&& 0xFF00 then
      { r.2 with cycles := r.2.cycles + 1 }
    else r.2)

/-- Immediate (`inmediate` in the source): the operand is at PC. -/
def inmediate (m : Machine) : Nat × Machine :=
  (m.PC, { m with PC := (m.PC + 1) % 65536 })

/-- Indirect (JMP): reads the pointer linearly (no 6502 page-wrap bug). -/
def indirect (m : Machine) : Nat × Machine :=
  let r := fetch16 m
  read_word r.2 r.1

/-- (Indirect,X): zero-page pointer, uint8 wrap on both additions. -/
def indirectX (m : Machine) : Nat × Machine :=
  let f := fetch m
  let addr := (f.1 + f.2.X) % 256
  let lo := read_byte f.2 addr
  let hi := read_byte lo.2 ((addr + 1) % 256)
  (word hi.1 lo.1, hi.2)

/-- (Indirect),Y. -/
def indirectY (m : Machine) : Nat × Machine :=
  let f := fetch m
  let addr := f.1 % 256
  let lo := read_byte f.2 addr
  let hi := read_byte lo.2 ((addr + 1) % 256)
  ((word hi.1 lo.1 + hi.2.Y) % 65536, hi.2)

/-- (Indirect),Y adding 1 cycle if a page boundary is crossed. -/
def indirectY_1 (m : Machine) : Nat × Machine :=
  let f := fetch m
  let addr := f.1 % 256
  let lo := read_byte f.2 addr
  let hi := read_byte lo.2 ((addr + 1) % 256)
  let e_address := (word hi.1 lo.1 + hi.2.Y) % 65536
  (e_address,
    if e_address >>> 8 ≠ hi.1 then { hi.2 with cycles := hi.2.cycles + 1 } else hi.2)

/-- Zero page. -/
def zeropage (m : Machine) : Nat × Machine :=
  fetch m

/-- Zero page,X (wraps within page zero). -/
def zeropageX (m : Machine) : Nat × Machine :=
  let f := fetch m
  ((f.1 + f.2.X) &&& 0x00FF, f.2)

/-- Zero page,Y (wraps within page zero). -/
def zeropageY (m : Machine) : Nat × Machine :=
  let f := fetch m
  ((f.1 + f.2.Y) &&& 0x00FF, f.2)

-- Instruction cores (cpu6502.c).

/-- ADC: add memory to accumulator with carry (binary and decimal). -/
def ADC (m : Machine) (address : Nat) : Machine :=
  let r := read_byte m address
  let op1 := m.A
  let op2 := r.1
  let m := r.2
  if m.D_Flag then
    let dec_l := (op1 &&& 0x0F) + (op2 &&& 0x0F) + (if m.C_Flag then 1 else 0)
    let dec_h := (op1 &&& 0xF0) + (op2 &&& 0xF0)
    let z := decide ((dec_l + dec_h) &&& 0xFF = 0)
    let adj := decide (0x09 < dec_l)
    let dec_h := if adj then dec_h + 0x10 else dec_h
    let dec_l := if adj then dec_l + 0x06 else dec_l
    let n := decide (dec_h &&& 0x80 ≠ 0)
    let v := decide ((op1 ^^^ op2) &&& 0x80 = 0 ∧ (op1 ^^^ dec_h) &&& 0x80 ≠ 0)
    let dec_h := if 0x90 < dec_h then dec_h + 0x60 else dec_h
    let c := decide (dec_h >>> 8 ≠ 0)
    { m with A := (dec_l &&& 0x000F) ||| (dec_h &&& 0x00F0),
             N_Flag := n, V_Flag := v, Z_Flag := z, C_Flag := c }
  else
    let aux := op1 + op2 + (if m.C_Flag then 1 else 0)
    let a' := aux &&& 0x00FF
    let m := update_NZ m a'
    { m with A := a',
             C_Flag := decide (aux >>> 8 ≠ 0),
             V_Flag := decide ((op1 &&& 0x80) = (op2 &&& 0x80) ∧ (op1 &&& 0x80) ≠ (a' &&& 0x80)) }

/-- AND memory with accumulator. -/
def AND (m : Machine) (address : Nat) : Machine :=
  let r := read_byte m address
  let a' := r.2.A &&& r.1
  update_NZ { r.2 with A := a' } a'

/-- ASL on memory. -/
def ASL (m : Machine) (address : Nat) : Machine :=
  let r := read_byte m address
  let data := (r.1 <<< 1) &&& 0xFF
  let m1 := update_NZ { r.2 with C_Flag := decide (r.1 &&& 0x80 ≠ 0) } data
  write_byte m1 address data

/-- ASL on the accumulator. -/
def ASL_ACC (m : Machine) : Machine :=
  let a' := (m.A <<< 1) &&& 0xFF
  update_NZ { m with C_Flag := decide (m.A &&& 0x80 ≠ 0), A := a' } a'

/-- BIT: test bits in memory with accumulator. -/
def BIT (m : Machine) (address : Nat) : Machine :=
  let r := read_byte m address
  { r.2 with N_Flag := decide (r.1 &&& 0x80 ≠ 0),
             V_Flag := decide (r.1 &&& 0x40 ≠ 0),
             Z_Flag := decide (r.1 &&& r.2.A = 0) }

/-- BRK: force break. -/
def BRK (m : Machine) : Machine :=
  let m1 := { m with PC := (m.PC + 1) % 65536 }
  let m2 := push16 m1 m1.PC
  let m3 := push m2 (get_P m2 ||| B_Flag_Mask)
  let m4 := { m3 with I_Flag := true }
  let r := read_word m4 IRQ_VECTOR
  { r.2 with PC := r.1 }

/-- BXX: branch on condition (relative addressing, taken/page-cross
penalty cycles). -/
def BXX (m : Machine) (condition : Bool) : Machine :=
  let r := read_byte m m.PC
  let m1 := { r.2 with PC := (m.PC + 1) % 65536 }
  if condition then
    let m2 := { m1 with cycles := m1.cycles + 1 }
    let e_address := (m2.PC + (if r.1 < 0x80 then r.1 else r.1 + 0xFF00)) % 65536
    let m3 :=
      if e_address &&& 0xFF00 ≠ m2.PC &&& 0xFF00 then
        { m2 with cycles := m2.cycles + 1 }
      else m2
    { m3 with PC := e_address }
  else m1

def CLC (m : Machine) : Machine := { m with C_Flag := false }

def CLD (m : Machine) : Machine := { m with D_Flag := false }

def CLI (m : Machine) : Machine := { m with I_Flag := false }

def CLV (m : Machine) : Machine := { m with V_Flag := false }

/-- CMP: compare memory with accumulator. -/
def CMP (m : Machine) (address : Nat) : Machine :=
  let r := read_byte m address
  compare r.2 r.2.A r.1

/-- CPX: compare memory and X. -/
def CPX (m : Machine) (address : Nat) : Machine :=
  let r := read_byte m address
  compare r.2 r.2.X r.1

/-- CPY: compare memory and Y. -/
def CPY (m : Machine) (address : Nat) : Machine :=
  let r := read_byte m address
  compare r.2 r.2.Y r.1

/-- DEC: decrement memory (uint8 wrap). -/
def DEC (m : Machine) (address : Nat) : Machine :=
  let r := read_byte m address
  let data := (r.1 + 255) % 256
  write_byte (update_NZ r.2 data) address data

def DEX (m : Machine) : Machine :=
  let x' := (m.X + 255) % 256
  update_NZ { m with X := x' } x'

def DEY (m : Machine) : Machine :=
  let y' := (m.Y + 255) % 256
  update_NZ { m with Y := y' } y'

/-- EOR: exclusive-or memory with accumulator. -/
def EOR (m : Machine) (address : Nat) : Machine :=
  let r := read_byte m address
  let a' := r.2.A ^^^ r.1
  update_NZ { r.2 with A := a' } a'

/-- INC: increment memory (uint8 wrap). -/
def INC (m : Machine) (address : Nat) : Machine :=
  let r := read_byte m address
  let data := (r.1 + 1) % 256
  write_byte (update_NZ r.2 data) address data

def INX (m : Machine) : Machine :=
  let x' := (m.X + 1) % 256
  update_NZ { m with X := x' } x'

def INY (m : Machine) : Machine :=
  let y' := (m.Y + 1) % 256
  update_NZ { m with Y := y' } y'

def JMP (m : Machine) (address : Nat) : Machine :=
  { m with PC := address }

/-- JSR: push `PC - 1` (PC already past both operand bytes), then jump. -/
def JSR (m : Machine) (address : Nat) : Machine :=
  let m1 := push16 m ((m.PC + 65535) % 65536)
  { m1 with PC := address }

def LDA (m : Machine) (address : Nat) : Machine :=
  let r := read_byte m address
  update_NZ { r.2 with A := r.1 } r.1

def LDX (m : Machine) (address : Nat) : Machine :=
  let r := read_byte m address
  update_NZ { r.2 with X := r.1 } r.1

def LDY (m : Machine) (address : Nat) : Machine :=
  let r := read_byte m address
  update_NZ { r.2 with Y := r.1 } r.1

/-- LSR on memory. -/
def LSR (m : Machine) (address : Nat) : Machine :=
  let r := read_byte m address
  let data := r.1 >>> 1
  let m1 := update_NZ { r.2 with C_Flag := decide (r.1 &&& 0x01 ≠ 0) } data
  write_byte m1 address data

/-- LSR on the accumulator. -/
def LSR_ACC (m : Machine) : Machine :=
  let a' := m.A >>> 1
  update_NZ { m with C_Flag := decide (m.A &&& 0x01 ≠ 0), A := a' } a'

/-- ORA: or memory with accumulator. -/
def ORA (m : Machine) (address : Nat) : Machine :=
  let r := read_byte m address
  let a' := r.2.A ||| r.1
  update_NZ { r.2 with A := a' } a'

def PHA (m : Machine) : Machine := push m m.A

/-- PHP: pushes the packed flags with the B bit set. -/
def PHP (m : Machine) : Machine := push m (get_P m ||| B_Flag_Mask)

def PLA (m : Machine) : Machine :=
  let p := pop m
  update_NZ { p.2 with A := p.1 } p.1

def PLP (m : Machine) : Machine :=
  let p := pop m
  set_P p.2 p.1

/-- ROL on memory. -/
def ROL (m : Machine) (address : Nat) : Machine :=
  let r := read_byte m address
  let data := ((r.1 <<< 1) &&& 0xFF) ||| (if r.2.C_Flag then 0x01 else 0)
  let m1 := update_NZ { r.2 with C_Flag := decide (r.1 &&& 0x80 ≠ 0) } data
  write_byte m1 address data

/-- ROL on the accumulator. -/
def ROL_ACC (m : Machine) : Machine :=
  let a' := ((m.A <<< 1) &&& 0xFF) ||| (if m.C_Flag then 0x01 else 0)
  update_NZ { m with C_Flag := decide (m.A &&& 0x80 ≠ 0), A := a' } a'

/-- ROR on memory. -/
def ROR (m : Machine) (address : Nat) : Machine :=
  let r := read_byte m address
  let data := (r.1 >>> 1) ||| (if r.2.C_Flag then 0x80 else 0)
  let m1 := update_NZ { r.2 with C_Flag := decide (r.1 &&& 0x01 ≠ 0) } data
  write_byte m1 address data

/-- ROR on the accumulator. -/
def ROR_ACC (m : Machine) : Machine :=
  let a' := (m.A >>> 1) ||| (if m.C_Flag then 0x80 else 0)
  update_NZ { m with C_Flag := decide (m.A &&& 0x01 ≠ 0), A := a' } a'

/-- RTI: pull status, then pull PC. -/
def RTI (m : Machine) : Machine :=
  let p := pop m
  let m1 := set_P p.2 p.1
  let r := pop16 m1
  { r.2 with PC := r.1 }

/-- RTS: pull PC and add one. -/
def RTS (m : Machine) : Machine :=
  let r := pop16 m
  { r.2 with PC := (r.1 + 1) % 65536 }

/-- SBC: subtract with carry (binary and decimal). -/
def SBC (m : Machine) (address : Nat) : Machine :=
  let r := read_byte m address
  let op1 := m.A
  let m := r.2
  if m.D_Flag then
    let op2 := r.1
    let b := if m.C_Flag then 0 else 1
    let aux := (op1 + 65536 - op2 - b) % 65536
    let dec_l := ((op1 &&& 0x0F) + 65536 - (op2 &&& 0x0F) - b) % 65536
    let dec_h := ((op1 &&& 0xF0) + 65536 - (op2 &&& 0xF0)) % 65536
    let adj := decide (dec_l &&& 0x10 ≠ 0)
    let dec_l := if adj then (dec_l + 65536 - 6) % 65536 else dec_l
    let dec_h := if adj then (dec_h + 65535) % 65536 else dec_h
    let v := decide ((op1 ^^^ op2) &&& (op1 ^^^ aux) &&& 0x80 ≠ 0)
    let c := decide (aux &&& 0xFF00 = 0)
    let z := decide (aux &&& 0x00FF = 0)
    let n := decide (aux &&& 0x0080 ≠ 0)
    let dec_h := if dec_h &&& 0x0100 ≠ 0 then (dec_h + 65536 - 0x60) % 65536 else dec_h
    { m with A := (dec_l &&& 0x0F) ||| (dec_h &&& 0xF0),
             N_Flag := n, V_Flag := v, Z_Flag := z, C_Flag := c }
  else
    let op2 := r.1 ^^^ 0xFF
    let aux := op1 + op2 + (if m.C_Flag then 1 else 0)
    let a' := aux &&& 0x00FF
    let m := update_NZ m a'
    { m with A := a',
             C_Flag := decide (aux >>> 8 ≠ 0),
             V_Flag := decide ((op1 &&& 0x80) = (op2 &&& 0x80) ∧ (op1 &&& 0x80) ≠ (a' &&& 0x80)) }

def SEC (m : Machine) : Machine := { m with C_Flag := true }

def SED (m : Machine) : Machine := { m with D_Flag := true }

def SEI (m : Machine) : Machine := { m with I_Flag := true }

def STA (m : Machine) (address : Nat) : Machine := write_byte m address m.A

def STX (m : Machine) (address : Nat) : Machine := write_byte m address m.X

def STY (m : Machine) (address : Nat) : Machine := write_byte m address m.Y

def TAX (m : Machine) : Machine := update_NZ { m with X := m.A } m.A

def TAY (m : Machine) : Machine := update_NZ { m with Y := m.A } m.A

def TSX (m : Machine) : Machine := update_NZ { m with X := m.SP } m.SP

def TXA (m : Machine) : Machine := update_NZ { m with A := m.X } m.X

def TXS (m : Machine) : Machine := { m with SP := m.X }

def TYA (m : Machine) : Machine := update_NZ { m with A := m.Y } m.Y

/-- `cpu_reset`: registers cleared, SP = 0xFD, packed flags 0x36,
PC loaded from the reset vector. -/
def cpu_reset (m : Machine) : Machine :=
  let m1 := set_P { m with A := 0x00, X := 0x00, Y := 0x00, SP := 0xFD } 0x36
  let r := read_word m1 RST_VECTOR
  { r.2 with PC := r.1 }

/-- `illegal_opcode`: record the diagnostic (opcode and the PC the
opcode was fetched from, i.e. the current PC minus one with uint16
wrap), then reset the CPU. -/
def illegal_opcode (m : Machine) (opcode : Nat) : Machine :=
  cpu_reset { m with diag := m.diag ++ [(opcode, (m.PC + 65535) % 65536)] }

/-- `cpu_irq`: record the new IRQ pin level (level triggered). -/
def cpu_irq (m : Machine) (level : Nat) : Machine :=
  { m with IRQ_PIN_LEVEL := level }

/-- `cpu_nmi`: the source performs the interrupt entry immediately at
the call. -/
def cpu_nmi (m : Machine) : Machine :=
  do_irq m NMI_VECTOR

/-- Helper for the per-opcode base cycle addition (`cycles += n`). -/
def addCycles (m : Machine) (n : Nat) : Machine :=
  { m with cycles := m.cycles + n }

/-- The giant opcode switch of `cpu_execute`.  Every documented opcode
has its explicit case; all undocumented opcodes fall to the default,
exactly as each of their explicit C cases calls
`illegal_opcode(opcode)`. -/
def dispatch (m : Machine) (opcode : Nat) : Machine :=
  match opcode with
  | 0x00 => addCycles (BRK m) 7
  | 0x01 => let r := indirectX m; addCycles (ORA r.2 r.1) 6
  | 0x05 => let r := zeropage m; addCycles (ORA r.2 r.1) 3
  | 0x06 => let r := zeropage m; addCycles (ASL r.2 r.1) 5
  | 0x08 => addCycles (PHP m) 3
  | 0x09 => let r := inmediate m; addCycles (ORA r.2 r.1) 2
  | 0x0A => addCycles (ASL_ACC m) 2
  | 0x0D => let r := absolute m; addCycles (ORA r.2 r.1) 4
  | 0x0E => let r := absolute m; addCycles (ASL r.2 r.1) 6
  | 0x10 => addCycles (BXX m (!m.N_Flag)) 2
  | 0x11 => let r := indirectY_1 m; addCycles (ORA r.2 r.1) 5
  | 0x15 => let r := zeropageX m; addCycles (ORA r.2 r.1) 4
  | 0x16 => let r := zeropageX m; addCycles (ASL r.2 r.1) 6
  | 0x18 => addCycles (CLC m) 2
  | 0x19 => let r := absoluteY_1 m; addCycles (ORA r.2 r.1) 4
  | 0x1D => let r := absoluteX_1 m; addCycles (ORA r.2 r.1) 4
  | 0x1E => let r := absoluteX m; addCycles (ASL r.2 r.1) 7
  | 0x20 => let r := absolute m; addCycles (JSR r.2 r.1) 6
  | 0x21 => let r := indirectX m; addCycles (AND r.2 r.1) 6
  | 0x24 => let r := zeropage m; addCycles (BIT r.2 r.1) 3
  | 0x25 => let r := zeropage m; addCycles (AND r.2 r.1) 3
  | 0x26 => let r := zeropage m; addCycles (ROL r.2 r.1) 5
  | 0x28 => addCycles (PLP m) 4
  | 0x29 => let r := inmediate m; addCycles (AND r.2 r.1) 2
  | 0x2A => addCycles (ROL_ACC m) 2
  | 0x2C => let r := absolute m; addCycles (BIT r.2 r.1) 4
  | 0x2D => let r := absolute m; addCycles (AND r.2 r.1) 4
  | 0x2E => let r := absolute m; addCycles (ROL r.2 r.1) 6
  | 0x30 => addCycles (BXX m m.N_Flag) 2
  | 0x31 => let r := indirectY_1 m; addCycles (AND r.2 r.1) 5
  | 0x35 => let r := zeropageX m; addCycles (AND r.2 r.1) 4
  | 0x36 => let r := zeropageX m; addCycles (ROL r.2 r.1) 6
  | 0x38 => addCycles (SEC m) 2
  | 0x39 => let r := absoluteY_1 m; addCycles (AND r.2 r.1) 4
  | 0x3D => let r := absoluteX_1 m; addCycles (AND r.2 r.1) 4
  | 0x3E => let r := absoluteX m; addCycles (ROL r.2 r.1) 7
  | 0x40 => addCycles (RTI m) 6
  | 0x41 => let r := indirectX m; addCycles (EOR r.2 r.1) 6
  | 0x45 => let r := zeropage m; addCycles (EOR r.2 r.1) 3
  | 0x46 => let r := zeropage m; addCycles (LSR r.2 r.1) 5
  | 0x48 => addCycles (PHA m) 3
  | 0x49 => let r := inmediate m; addCycles (EOR r.2 r.1) 2
  | 0x4A => addCycles (LSR_ACC m) 2
  | 0x4C => let r := absolute m; addCycles (JMP r.2 r.1) 3
  | 0x4D => let r := absolute m; addCycles (EOR r.2 r.1) 4
  | 0x4E => let r := absolute m; addCycles (LSR r.2 r.1) 6
  | 0x50 => addCycles (BXX m (!m.V_Flag)) 2
  | 0x51 => let r := indirectY_1 m; addCycles (EOR r.2 r.1) 5
  | 0x55 => let r := zeropageX m; addCycles (EOR r.2 r.1) 4
  | 0x56 => let r := zeropageX m; addCycles (LSR r.2 r.1) 6
  | 0x58 => addCycles (CLI m) 2
  | 0x59 => let r := absoluteY_1 m; addCycles (EOR r.2 r.1) 4
  | 0x5D => let r := absoluteX_1 m; addCycles (EOR r.2 r.1) 4
  | 0x5E => let r := absoluteX m; addCycles (LSR r.2 r.1) 7
  | 0x60 => addCycles (RTS m) 6
  | 0x61 => let r := indirectX m; addCycles (ADC r.2 r.1) 6
  | 0x65 => let r := zeropage m; addCycles (ADC r.2 r.1) 3
  | 0x66 => let r := zeropage m; addCycles (ROR r.2 r.1) 5
  | 0x68 => addCycles (PLA m) 4
  | 0x69 => let r := inmediate m; addCycles (ADC r.2 r.1) 2
  | 0x6A => addCycles (ROR_ACC m) 2
  | 0x6C => let r := indirect m; addCycles (JMP r.2 r.1) 5
  | 0x6D => let r := absolute m; addCycles (ADC r.2 r.1) 4
  | 0x6E => let r := absolute m; addCycles (ROR r.2 r.1) 6
  | 0x70 => addCycles (BXX m m.V_Flag) 2
  | 0x71 => let r := indirectY_1 m; addCycles (ADC r.2 r.1) 5
  | 0x75 => let r := zeropageX m; addCycles (ADC r.2 r.1) 4
  | 0x76 => let r := zeropageX m; addCycles (ROR r.2 r.1) 6
  | 0x78 => addCycles (SEI m) 2
  | 0x79 => let r := absoluteY_1 m; addCycles (ADC r.2 r.1) 4
  | 0x7D => let r := absoluteX_1 m; addCycles (ADC r.2 r.1) 4
  | 0x7E => let r := absoluteX m; addCycles (ROR r.2 r.1) 7
  | 0x81 => let r := indirectX m; addCycles (STA r.2 r.1) 6
  | 0x84 => let r := zeropage m; addCycles (STY r.2 r.1) 3
  | 0x85 => let r := zeropage m; addCycles (STA r.2 r.1) 3
  | 0x86 => let r := zeropage m; addCycles (STX r.2 r.1) 3
  | 0x88 => addCycles (DEY m) 2
  | 0x8A => addCycles (TXA m) 2
  | 0x8C => let r := absolute m; addCycles (STY r.2 r.1) 4
  | 0x8D => let r := absolute m; addCycles (STA r.2 r.1) 4
  | 0x8E => let r := absolute m; addCycles (STX r.2 r.1) 4
  | 0x90 => addCycles (BXX m (!m.C_Flag)) 2
  | 0x91 => let r := indirectY m; addCycles (STA r.2 r.1) 6
  | 0x94 => let r := zeropageX m; addCycles (STY r.2 r.1) 4
  | 0x95 => let r := zeropageX m; addCycles (STA r.2 r.1) 4
  | 0x96 => let r := zeropageY m; addCycles (STX r.2 r.1) 4
  | 0x98 => addCycles (TYA m) 2
  | 0x99 => let r := absoluteY m; addCycles (STA r.2 r.1) 5
  | 0x9A => addCycles (TXS m) 2
  | 0x9D => let r := absoluteX m; addCycles (STA r.2 r.1) 5
  | 0xA0 => let r := inmediate m; addCycles (LDY r.2 r.1) 2
  | 0xA1 => let r := indirectX m; addCycles (LDA r.2 r.1) 6
  | 0xA2 => let r := inmediate m; addCycles (LDX r.2 r.1) 2
  | 0xA4 => let r := zeropage m; addCycles (LDY r.2 r.1) 3
  | 0xA5 => let r := zeropage m; addCycles (LDA r.2 r.1) 3
  | 0xA6 => let r := zeropage m; addCycles (LDX r.2 r.1) 3
  | 0xA8 => addCycles (TAY m) 2
  | 0xA9 => let r := inmediate m; addCycles (LDA r.2 r.1) 2
  | 0xAA => addCycles (TAX m) 2
  | 0xAC => let r := absolute m; addCycles (LDY r.2 r.1) 4
  | 0xAD => let r := absolute m; addCycles (LDA r.2 r.1) 4
  | 0xAE => let r := absolute m; addCycles (LDX r.2 r.1) 4
  | 0xB0 => addCycles (BXX m m.C_Flag) 2
  | 0xB1 => let r := indirectY_1 m; addCycles (LDA r.2 r.1) 5
  | 0xB4 => let r := zeropageX m; addCycles (LDY r.2 r.1) 4
  | 0xB5 => let r := zeropageX m; addCycles (LDA r.2 r.1) 4
  | 0xB6 => let r := zeropageY m; addCycles (LDX r.2 r.1) 4
  | 0xB8 => addCycles (CLV m) 2
  | 0xB9 => let r := absoluteY_1 m; addCycles (LDA r.2 r.1) 4
  | 0xBA => addCycles (TSX m) 2
  | 0xBC => let r := absoluteX_1 m; addCycles (LDY r.2 r.1) 4
  | 0xBD => let r := absoluteX_1 m; addCycles (LDA r.2 r.1) 4
  | 0xBE => let r := absoluteY_1 m; addCycles (LDX r.2 r.1) 4
  | 0xC0 => let r := inmediate m; addCycles (CPY r.2 r.1) 2
  | 0xC1 => let r := indirectX m; addCycles (CMP r.2 r.1) 6
  | 0xC4 => let r := zeropage m; addCycles (CPY r.2 r.1) 3
  | 0xC5 => let r := zeropage m; addCycles (CMP r.2 r.1) 3
  | 0xC6 => let r := zeropage m; addCycles (DEC r.2 r.1) 5
  | 0xC8 => addCycles (INY m) 2
  | 0xC9 => let r := inmediate m; addCycles (CMP r.2 r.1) 2
  | 0xCA => addCycles (DEX m) 2
  | 0xCC => let r := absolute m; addCycles (CPY r.2 r.1) 4
  | 0xCD => let r := absolute m; addCycles (CMP r.2 r.1) 4
  | 0xCE => let r := absolute m; addCycles (DEC r.2 r.1) 6
  | 0xD0 => addCycles (BXX m (!m.Z_Flag)) 2
  | 0xD1 => let r := indirectY_1 m; addCycles (CMP r.2 r.1) 5
  | 0xD5 => let r := zeropageX m; addCycles (CMP r.2 r.1) 4
  | 0xD6 => let r := zeropageX m; addCycles (DEC r.2 r.1) 6
  | 0xD8 => addCycles (CLD m) 2
  | 0xD9 => let r := absoluteY_1 m; addCycles (CMP r.2 r.1) 4
  | 0xDD => let r := absoluteX_1 m; addCycles (CMP r.2 r.1) 4
  | 0xDE => let r := absoluteX m; addCycles (DEC r.2 r.1) 7
  | 0xE0 => let r := inmediate m; addCycles (CPX r.2 r.1) 2
  | 0xE1 => let r := indirectX m; addCycles (SBC r.2 r.1) 6
  | 0xE4 => let r := zeropage m; addCycles (CPX r.2 r.1) 3
  | 0xE5 => let r := zeropage m; addCycles (SBC r.2 r.1) 3
  | 0xE6 => let r := zeropage m; addCycles (INC r.2 r.1) 5
  | 0xE8 => addCycles (INX m) 2
  | 0xE9 => let r := inmediate m; addCycles (SBC r.2 r.1) 2
  | 0xEA => addCycles m 2
  | 0xEC => let r := absolute m; addCycles (CPX r.2 r.1) 4
  | 0xED => let r := absolute m; addCycles (SBC r.2 r.1) 4
  | 0xEE => let r := absolute m; addCycles (INC r.2 r.1) 6
  | 0xF0 => addCycles (BXX m m.Z_Flag) 2
  | 0xF1 => let r := indirectY_1 m; addCycles (SBC r.2 r.1) 5
  | 0xF5 => let r := zeropageX m; addCycles (SBC r.2 r.1) 4
  | 0xF6 => let r := zeropageX m; addCycles (INC r.2 r.1) 6
  | 0xF8 => addCycles (SED m) 2
  | 0xF9 => let r := absoluteY_1 m; addCycles (SBC r.2 r.1) 4
  | 0xFD => let r := absoluteX_1 m; addCycles (SBC r.2 r.1) 4
  | 0xFE => let r := absoluteX m; addCycles (INC r.2 r.1) 7
  | _ => illegal_opcode m opcode

/-- The IRQ sampling at the top of `cpu_execute`:
`if (!(IRQ_PIN_LEVEL || I_Flag)) do_irq(IRQ_VECTOR);`. -/
def irqPhase (m : Machine) : Machine :=
  if m.IRQ_PIN_LEVEL = 0 ∧ m.I_Flag = false then do_irq m IRQ_VECTOR else m

/-- `cpu_execute`: reset the cycle counter, sample IRQ, fetch one
opcode and dispatch; returns the cycles consumed and the new state. -/
def cpu_execute (m : Machine) : Nat × Machine :=
  let m1 := irqPhase { m with cycles := 0 }
  let f := fetch m1
  let m2 := dispatch f.2 f.1
  (m2.cycles, m2)

/-- `motherboard_reset`: reset the ACIA, then the CPU. -/
def motherboard_reset (m : Machine) : Machine :=
  cpu_reset (motherboard_reset_acia m)

-- Definitions supporting the claim statements.

/-- The eight conditional-branch opcodes. -/
def branchOpcodes : List Nat :=
  [0x10, 0x30, 0x50, 0x70, 0x90, 0xB0, 0xD0, 0xF0]

/-- The branch condition each branch opcode tests, exactly as passed to
`BXX` in the opcode switch. -/
def branchCond (opcode : Nat) (m : Machine) : Bool :=
  match opcode with
  | 0x10 => !m.N_Flag
  | 0x30 => m.N_Flag
  | 0x50 => !m.V_Flag
  | 0x70 => m.V_Flag
  | 0x90 => !m.C_Flag
  | 0xB0 => m.C_Flag
  | 0xD0 => !m.Z_Flag
  | 0xF0 => m.Z_Flag
  | _ => false

/-- The 105 byte values whose cases in the opcode switch call
`illegal_opcode` (the complement of the 151 documented opcodes). -/
def illegalOpcodes : List Nat :=
  [0x02, 0x03, 0x04, 0x07, 0x0B, 0x0C, 0x0F, 0x12, 0x13, 0x14, 0x17, 0x1A,
   0x1B, 0x1C, 0x1F, 0x22, 0x23, 0x27, 0x2B, 0x2F, 0x32, 0x33, 0x34, 0x37,
   0x3A, 0x3B, 0x3C, 0x3F, 0x42, 0x43, 0x44, 0x47, 0x4B, 0x4F, 0x52, 0x53,
   0x54, 0x57, 0x5A, 0x5B, 0x5C, 0x5F, 0x62, 0x63, 0x64, 0x67, 0x6B, 0x6F,
   0x72, 0x73, 0x74, 0x77, 0x7A, 0x7B, 0x7C, 0x7F, 0x80, 0x82, 0x83, 0x87,
   0x89, 0x8B, 0x8F, 0x92, 0x93, 0x97, 0x9B, 0x9C, 0x9E, 0x9F, 0xA3, 0xA7,
   0xAB, 0xAF, 0xB2, 0xB3, 0xB7, 0xBB, 0xBF, 0xC2, 0xC3, 0xC7, 0xCB, 0xCF,
   0xD2, 0xD3, 0xD4, 0xD7, 0xDA, 0xDB, 0xDC, 0xDF, 0xE2, 0xE3, 0xE7, 0xEB,
   0xEF, 0xF2, 0xF3, 0xF4, 0xF7, 0xFA, 0xFB, 0xFC, 0xFF]

/-- A byte is a valid packed-BCD pair when each nibble is ≤ 9. -/
def isBCD (x : Nat) : Bool :=
  decide (x &&& 0x0F ≤ 9 ∧ x >>> 4 ≤ 9)

/-- The two-digit decimal number a packed-BCD byte denotes. -/
def fromBCD (x : Nat) : Nat :=
  10 * (x >>> 4) + (x &&& 0x0F)

/-- The packed-BCD byte for a number below 100. -/
def toBCD (n : Nat) : Nat :=
  16 * (n / 10) + n % 10

/-- A quiescent machine: registers and memory all zero, IRQ pin
deasserted, I set (the value it has after a reset). -/
def baseMachine : Machine :=
  { A := 0, X := 0, Y := 0, SP := 0xFD, PC := 0,
    N_Flag := false, V_Flag := false, D_Flag := false, I_Flag := true,
    Z_Flag := false, C_Flag := false,
    cycles := 0, IRQ_PIN_LEVEL := 1,
    RAM := fun _ => 0, ROM := fun _ => 0,
    acia := mc6850_reset, kbdReady := false, kbd := [], termOut := [],
    diag := [] }

/-- Machine used to exercise decimal `ADC`: D set, A and the carry
given, every RAM byte equal to the operand. -/
def adcTestMachine (a b : Nat) (cin : Bool) : Machine :=
  { baseMachine with A := a, C_Flag := cin, D_Flag := true, RAM := fun _ => b }

/-- Machine with the IRQ line asserted and I clear; the IRQ vector
points at 0x9000 in ROM, where the handler starts with NOP (the ROM
reads 0xEA everywhere outside the vectors). -/
def irqPendingMachine : Machine :=
  { baseMachine with
    I_Flag := false
    IRQ_PIN_LEVEL := 0
    ROM := fun a => if a = 0x7FFE then 0x00 else if a = 0x7FFF then 0x90 else 0xEA }

/-- Machine whose NMI vector points at 0x9000 in ROM, where the handler
starts with NOP. -/
def nmiMachine : Machine :=
  { baseMachine with
    ROM := fun a => if a = 0x7FFA then 0x00 else if a = 0x7FFB then 0x90 else 0xEA }

/-- RAM holding `20 06 00 00 00 00 60` from address 0: `JSR $0006` at
0x0000 and `RTS` at 0x0006. -/
def jsrMachine : Machine :=
  { baseMachine with
    RAM := fun a =>
      if a = 0 then 0x20 else if a = 1 then 0x06 else if a = 6 then 0x60 else 0 }

/-- Machine about to execute `BEQ +16` at 0x00F2 with Z set: the taken
branch lands at 0x0104, crossing a page. -/
def branchMachine : Machine :=
  { baseMachine with
    Z_Flag := true
    PC := 0xF2
    RAM := fun a => if a = 0xF2 then 0xF0 else if a = 0xF3 then 0x10 else 0 }

/-- Machine whose RAM is filled with the undocumented opcode 0x02 and
whose reset vector reads 0x1234. -/
def illegalMachine : Machine :=
  { baseMachine with
    RAM := fun _ => 0x02
    ROM := fun a => if a = 0x7FFC then 0x34 else if a = 0x7FFD then 0x12 else 0 }

-- Generic facts about the bus, the stack helpers and the interrupt
-- entry, shared by the claim proofs below.

theorem motherboard_readbyte_shape (m : Machine) (a : Nat) :
    ∃ v ac kb, motherboard_readbyte m a = (v, { m with acia := ac, kbd := kb }) := by
  unfold motherboard_readbyte
  split_ifs <;> exact ⟨_, _, _, rfl⟩

theorem fetch_shape (m : Machine) :
    ∃ v ac kb, fetch m = (v, { m with acia := ac, kbd := kb, PC := (m.PC + 1) % 65536 }) := by
  obtain ⟨v, ac, kb, h⟩ := motherboard_readbyte_shape m m.PC
  refine ⟨v, ac, kb, ?_⟩
  simp only [fetch, read_byte]
  rw [h]

theorem write_ROM_unchanged (m : Machine) (a d : Nat) :
    (motherboard_writebyte m a d).ROM = m.ROM := by
  unfold motherboard_writebyte
  split_ifs <;> rfl

theorem read_cycles_unchanged (m : Machine) (a : Nat) :
    (motherboard_readbyte m a).2.cycles = m.cycles := by
  obtain ⟨v, ac, kb, h⟩ := motherboard_readbyte_shape m a
  rw [h]

set_option maxRecDepth 8000

theorem stack_sel : ∀ s, s < 256 →
    (0x0100 ||| s ≤ 0x7FFF) ∧ ((0x0100 ||| s) &&& 0x7FFF = 256 + s) := by
  decide

theorem word_lt (h l : Nat) (hh : h < 256) (hl : l < 256) : word h l < 65536 := by
  have hx : l < 2 ^ 8 := by simpa using hl
  have hy : h < 2 ^ 8 := by simpa using hh
  have := Nat.append_lt hx hy
  simpa [word] using this

theorem push_eq (m : Machine) (d : Nat) (h : m.SP < 256) :
    push m d = { m with RAM := fun a => if a = 256 + m.SP then d else m.RAM a,
                        SP := (m.SP + 255) % 256 } := by
  have h1 := (stack_sel m.SP h).1
  have h2 := (stack_sel m.SP h).2
  simp only [push, write_byte, motherboard_writebyte]
  rw [if_pos h1, h2]

theorem pop_eq (m : Machine) :
    pop m = (m.RAM (256 + (m.SP + 1) % 256), { m with SP := (m.SP + 1) % 256 }) := by
  have hlt : (m.SP + 1) % 256 < 256 := Nat.mod_lt _ (by omega)
  have h1 := (stack_sel _ hlt).1
  have h2 := (stack_sel _ hlt).2
  simp only [pop, read_byte, motherboard_readbyte]
  rw [if_pos h1, h2]

theorem readbyte_ROMhi (m : Machine) (v : Nat) (hv1 : 0xF000 ≤ v) (hv2 : v ≤ 0xFFFF)
    (hv3 : ¬ v ≤ 0xF7FF) :
    motherboard_readbyte m v = (m.ROM (v &&& 0x7FFF), m) := by
  unfold motherboard_readbyte
  rw [if_neg (by omega : ¬ (v ≤ 0x7FFF)), if_neg (by omega : ¬ (v ≤ 0xEFFF)),
      if_neg hv3, if_pos hv2]

theorem read_word_ROMhi (m : Machine) (v : Nat) (hv1 : 0xF800 ≤ v) (hv2 : v ≤ 0xFFFE) :
    read_word m v = (word (m.ROM ((v + 1) &&& 0x7FFF)) (m.ROM (v &&& 0x7FFF)), m) := by
  have e : (v + 1) % 65536 = v + 1 := by omega
  have h1 := readbyte_ROMhi m v (by omega) (by omega) (by omega)
  have h2 := readbyte_ROMhi m (v + 1) (by omega) (by omega) (by omega)
  simp only [read_word, read_byte, e, h1, h2]

theorem push3_eq (m : Machine) (d1 d2 d3 : Nat) (h : m.SP < 256) :
    push (push (push m d1) d2) d3 =
      { m with
        RAM := fun a =>
          if a = 256 + (m.SP + 254) % 256 then d3
          else if a = 256 + (m.SP + 255) % 256 then d2
          else if a = 256 + m.SP then d1
          else m.RAM a,
        SP := (m.SP + 253) % 256 } := by
  have hb1 : (m.SP + 255) % 256 < 256 := Nat.mod_lt _ (by omega)
  have hb2 : (m.SP + 254) % 256 < 256 := Nat.mod_lt _ (by omega)
  rw [push_eq m d1 h]
  rw [push_eq _ d2 hb1]
  simp only
  rw [show ((m.SP + 255) % 256 + 255) % 256 = (m.SP + 254) % 256 by omega]
  rw [push_eq _ d3 hb2]
  simp only
  rw [show ((m.SP + 254) % 256 + 255) % 256 = (m.SP + 253) % 256 by omega]

theorem get_P_bit4 (m : Machine) : get_P m &&& 0x10 = 0 := by
  obtain ⟨_, _, _, _, _, nf, vf, df, fI, zf, cf, _, _, _, _, _, _, _, _, _⟩ := m
  unfold get_P
  cases nf <;> cases vf <;> cases df <;> cases fI <;> cases zf <;> cases cf <;>
    simp <;> decide

theorem push2_eq (m : Machine) (d1 d2 : Nat) (h : m.SP < 256) :
    push (push m d1) d2 =
      { m with
        RAM := fun a =>
          if a = 256 + (m.SP + 255) % 256 then d2
          else if a = 256 + m.SP then d1
          else m.RAM a,
        SP := (m.SP + 254) % 256 } := by
  have hb1 : (m.SP + 255) % 256 < 256 := Nat.mod_lt _ (by omega)
  rw [push_eq m d1 h]
  rw [push_eq _ d2 hb1]
  simp only
  rw [show ((m.SP + 255) % 256 + 255) % 256 = (m.SP + 254) % 256 by omega]

theorem do_irq_eq (m : Machine) (v : Nat) (h : m.SP < 256)
    (hv1 : 0xF800 ≤ v) (hv2 : v ≤ 0xFFFE) :
    do_irq m v =
      { m with
        RAM := fun a =>
          if a = 256 + (m.SP + 254) % 256 then get_P m
          else if a = 256 + (m.SP + 255) % 256 then m.PC &&& 0xFF
          else if a = 256 + m.SP then (m.PC >>> 8) &&& 0xFF
          else m.RAM a,
        SP := (m.SP + 253) % 256,
        I_Flag := true,
        PC := word (m.ROM ((v + 1) &&& 0x7FFF)) (m.ROM (v &&& 0x7FFF)),
        cycles := m.cycles + 7 } := by
  have hgp : get_P (push (push m ((m.PC >>> 8) &&& 0xFF)) (m.PC &&& 0xFF)) = get_P m := by
    rw [push2_eq m _ _ h]
    rfl
  simp only [do_irq, push16]
  rw [hgp, push3_eq m _ _ _ h, read_word_ROMhi _ v hv1 hv2]

theorem irqPhase_not (m : Machine) (h : ¬(m.IRQ_PIN_LEVEL = 0 ∧ m.I_Flag = false)) :
    irqPhase m = m := by
  unfold irqPhase
  exact if_neg h

theorem irqPhase_serviced (m : Machine) (h1 : m.IRQ_PIN_LEVEL = 0) (h2 : m.I_Flag = false) :
    irqPhase m = do_irq m IRQ_VECTOR := by
  unfold irqPhase
  exact if_pos ⟨h1, h2⟩

theorem dispatch_illegal : ∀ op ∈ illegalOpcodes, ∀ m : Machine,
    dispatch m op = illegal_opcode m op := by
  intro op hop m
  fin_cases hop <;> rfl

theorem cpu_reset_eq (m : Machine) :
    cpu_reset m =
      { m with A := 0, X := 0, Y := 0, SP := 0xFD,
               N_Flag := false, V_Flag := false, D_Flag := false,
               I_Flag := true, Z_Flag := true, C_Flag := false,
               PC := word (m.ROM 0x7FFD) (m.ROM 0x7FFC) } := by
  simp only [cpu_reset, RST_VECTOR, read_word, read_byte, set_P]
  rw [readbyte_ROMhi _ 0xFFFC (by norm_num) (by norm_num) (by norm_num)]
  rw [show (0xFFFC + 1) % 65536 = 0xFFFD by norm_num]
  rw [readbyte_ROMhi _ 0xFFFD (by norm_num) (by norm_num) (by norm_num)]
  rw [show (0xFFFD : Nat) &&& 0x7FFF = 0x7FFD by decide,
      show (0xFFFC : Nat) &&& 0x7FFF = 0x7FFC by decide,
      show decide ((0x36 : Nat) &&& 0x80 ≠ 0) = false by decide,
      show decide ((0x36 : Nat) &&& 0x40 ≠ 0) = false by decide,
      show decide ((0x36 : Nat) &&& 0x08 ≠ 0) = false by decide,
      show decide ((0x36 : Nat) &&& 0x04 ≠ 0) = true by decide,
      show decide ((0x36 : Nat) &&& 0x02 ≠ 0) = true by decide,
      show decide ((0x36 : Nat) &&& 0x01 ≠ 0) = false by decide]

/-- C10: in a step where no IRQ is serviced (pin deasserted or I set)
and the byte fetched at PC is an undocumented opcode, `cpu_execute`
returns a cycle count of 0: the illegal-opcode path performs the
diagnostic and the CPU reset but adds nothing to the per-step cycle
counter. -/
theorem illegal_step_zero_cycles (m : Machine)
    (hirq : ¬(m.IRQ_PIN_LEVEL = 0 ∧ m.I_Flag = false))
    (hop : (fetch { m with cycles := 0 }).1 ∈ illegalOpcodes) :
    (cpu_execute m).1 = 0 := by
  obtain ⟨v, ac, kb, hf⟩ := fetch_shape { m with cycles := 0 }
  have hop' : v ∈ illegalOpcodes := by rw [hf] at hop; exact hop
  have hirq' : ¬(({ m with cycles := 0 } : Machine).IRQ_PIN_LEVEL = 0 ∧
      ({ m with cycles := 0 } : Machine).I_Flag = false) := hirq
  simp only [cpu_execute]
  rw [irqPhase_not _ hirq', hf]
  dsimp only
  rw [dispatch_illegal v hop']
  rfl

/-- C3: whenever the byte fetched by a step is an undocumented opcode,
the step records the diagnostic naming that opcode and the PC it was
fetched from, and performs a full reset: afterwards A = X = Y = 0,
SP = 0xFD, the I flag is set and PC holds the word stored little-endian
at 0xFFFC/0xFFFD.  `cpu_execute` is a total function, so no error
propagates out of the step. -/
theorem illegal_fetch_resets (m : Machine) (hPC : m.PC < 65536) (hSP : m.SP < 256)
    (hROM : ∀ a, m.ROM a < 256)
    (hop : (fetch (irqPhase { m with cycles := 0 })).1 ∈ illegalOpcodes) :
    (cpu_execute m).2.diag =
        (irqPhase { m with cycles := 0 }).diag ++
          [((fetch (irqPhase { m with cycles := 0 })).1,
            (irqPhase { m with cycles := 0 }).PC)] ∧
    (cpu_execute m).2.A = 0 ∧ (cpu_execute m).2.X = 0 ∧ (cpu_execute m).2.Y = 0 ∧
    (cpu_execute m).2.SP = 0xFD ∧ (cpu_execute m).2.I_Flag = true ∧
    (cpu_execute m).2.PC = word (m.ROM 0x7FFD) (m.ROM 0x7FFC) := by
  set M1 := irqPhase { m with cycles := 0 } with hM1
  have hM1facts : M1.PC < 65536 ∧ M1.ROM = m.ROM := by
    by_cases hc : ({ m with cycles := 0 } : Machine).IRQ_PIN_LEVEL = 0 ∧
        ({ m with cycles := 0 } : Machine).I_Flag = false
    · rw [hM1, irqPhase_serviced _ hc.1 hc.2,
        do_irq_eq _ IRQ_VECTOR (by exact hSP) (by norm_num [IRQ_VECTOR])
          (by norm_num [IRQ_VECTOR])]
      exact ⟨word_lt _ _ (hROM _) (hROM _), rfl⟩
    · rw [hM1, irqPhase_not _ hc]
      exact ⟨hPC, rfl⟩
  obtain ⟨hM1PC, hM1ROM⟩ := hM1facts
  obtain ⟨v, ac, kb, hf⟩ := fetch_shape M1
  have hop' : v ∈ illegalOpcodes := by rw [hf] at hop; exact hop
  simp only [cpu_execute]
  rw [hf]
  dsimp only
  rw [dispatch_illegal v hop']
  simp only [illegal_opcode]
  rw [cpu_reset_eq]
  dsimp only
  refine ⟨?_, rfl, rfl, rfl, rfl, rfl, ?_⟩
  · rw [show ((M1.PC + 1) % 65536 + 65535) % 65536 = M1.PC by omega]
  · rw [hM1ROM]

/-- C1 counterexample: `irqPendingMachine` has the IRQ line asserted
(level 0) and the I flag clear, yet the step does not stop after the
7-cycle interrupt entry: it returns 9 cycles (7 for the entry plus 2
for the NOP fetched at the handler address 0x9000) and its final PC is
0x9001, one past the executed handler instruction. -/
theorem irq_cex :
    irqPendingMachine.IRQ_PIN_LEVEL = 0 ∧ irqPendingMachine.I_Flag = false ∧
    (cpu_execute irqPendingMachine).1 = 9 ∧ (cpu_execute irqPendingMachine).1 ≠ 7 ∧
    (cpu_execute irqPendingMachine).2.PC = 0x9001 := by
  decide

/-- C1 (amended): at a step boundary with the IRQ line at 0 and the I
flag clear, the CPU services the IRQ — pushes the PC high byte then low
byte, pushes the packed flags with bit 4 clear, sets I, loads PC
little-endian from 0xFFFE/0xFFFF, adds 7 cycles — and then continues to
fetch and execute the instruction at the handler entry in that same
step, so the returned count is 7 plus the cycles of that instruction. -/
theorem irq_service_then_execute (m : Machine) (hSP : m.SP < 256)
    (hpin : m.IRQ_PIN_LEVEL = 0) (hI : m.I_Flag = false) :
    cpu_execute m =
      (let f := fetch (do_irq { m with cycles := 0 } IRQ_VECTOR)
       ((dispatch f.2 f.1).cycles, dispatch f.2 f.1)) ∧
    (do_irq { m with cycles := 0 } IRQ_VECTOR).I_Flag = true ∧
    (do_irq { m with cycles := 0 } IRQ_VECTOR).PC = word (m.ROM 0x7FFF) (m.ROM 0x7FFE) ∧
    (do_irq { m with cycles := 0 } IRQ_VECTOR).cycles = 7 ∧
    (do_irq { m with cycles := 0 } IRQ_VECTOR).SP = (m.SP + 253) % 256 ∧
    (do_irq { m with cycles := 0 } IRQ_VECTOR).RAM (256 + m.SP) = (m.PC >>> 8) &&& 0xFF ∧
    (do_irq { m with cycles := 0 } IRQ_VECTOR).RAM (256 + (m.SP + 255) % 256) = m.PC &&& 0xFF ∧
    (do_irq { m with cycles := 0 } IRQ_VECTOR).RAM (256 + (m.SP + 254) % 256) = get_P m ∧
    get_P m &&& 0x10 = 0 := by
  have hd := do_irq_eq { m with cycles := 0 } IRQ_VECTOR (by exact hSP)
    (by norm_num [IRQ_VECTOR]) (by norm_num [IRQ_VECTOR])
  refine ⟨?_, ?_, ?_, ?_, ?_, ?_, ?_, ?_, get_P_bit4 m⟩
  · simp only [cpu_execute]
    rw [irqPhase_serviced _ (by exact hpin) (by exact hI)]
  · rw [hd]
  · rw [hd]
    dsimp only
    rw [show (IRQ_VECTOR + 1) &&& 0x7FFF = 0x7FFF by decide,
      show IRQ_VECTOR &&& 0x7FFF = 0x7FFE by decide]
  · rw [hd]
  · rw [hd]
  · rw [hd]
    dsimp only
    rw [if_neg (by omega), if_neg (by omega), if_pos rfl]
  · rw [hd]
    dsimp only
    rw [if_neg (by omega), if_pos rfl]
  · rw [hd]
    dsimp only
    rw [if_pos rfl]
    rfl

/-- C2 counterexample: calling `cpu_nmi` on `nmiMachine` does not
merely latch an edge — it changes PC immediately (to the NMI vector
target 0x9000) — and the next step returns only 2 cycles (the NOP at
the handler), not a count that includes the 7 cycles of the entry. -/
theorem nmi_cex :
    (cpu_nmi nmiMachine).PC ≠ nmiMachine.PC ∧
    ¬ 7 ≤ (cpu_execute (cpu_nmi nmiMachine)).1 ∧
    (cpu_nmi nmiMachine).PC = 0x9000 ∧
    (cpu_execute (cpu_nmi nmiMachine)).1 = 2 := by
  decide

/-- C2 (amended): `cpu_nmi` performs the whole NMI entry sequence
immediately during the call — pushes PC (high then low), pushes the
packed flags with bit 4 clear, sets I, loads PC little-endian from
0xFFFA/0xFFFB and adds 7 to the running cycle counter — regardless of
the I flag.  The next `cpu_execute` resets the cycle counter at entry,
so the count returned by any step excludes those 7 cycles. -/
theorem nmi_immediate_entry (m : Machine) (hSP : m.SP < 256) :
    cpu_nmi m = do_irq m NMI_VECTOR ∧
    (cpu_nmi m).I_Flag = true ∧
    (cpu_nmi m).PC = word (m.ROM 0x7FFB) (m.ROM 0x7FFA) ∧
    (cpu_nmi m).cycles = m.cycles + 7 ∧
    (cpu_nmi m).SP = (m.SP + 253) % 256 ∧
    (cpu_nmi m).RAM (256 + m.SP) = (m.PC >>> 8) &&& 0xFF ∧
    (cpu_nmi m).RAM (256 + (m.SP + 255) % 256) = m.PC &&& 0xFF ∧
    (cpu_nmi m).RAM (256 + (m.SP + 254) % 256) = get_P m ∧
    get_P m &&& 0x10 = 0 ∧
    (∀ m' : Machine, cpu_execute m' = cpu_execute { m' with cycles := 0 }) := by
  have hd : cpu_nmi m = _ :=
    do_irq_eq m NMI_VECTOR hSP (by norm_num [NMI_VECTOR]) (by norm_num [NMI_VECTOR])
  refine ⟨rfl, ?_, ?_, ?_, ?_, ?_, ?_, ?_, get_P_bit4 m, fun _ => rfl⟩
  · rw [hd]
  · rw [hd]
    dsimp only
    rw [show (NMI_VECTOR + 1) &&& 0x7FFF = 0x7FFB by decide,
      show NMI_VECTOR &&& 0x7FFF = 0x7FFA by decide]
  · rw [hd]
  · rw [hd]
  · rw [hd]
    dsimp only
    rw [if_neg (by omega), if_neg (by omega), if_pos rfl]
  · rw [hd]
    dsimp only
    rw [if_neg (by omega), if_pos rfl]
  · rw [hd]
    dsimp only
    rw [if_pos rfl]

/-- C9: `motherboard_reset` (ACIA reset followed by CPU reset) is
idempotent: performing it twice from any machine state yields exactly
the same CPU registers, flags, ACIA registers, RAM and ROM as
performing it once. -/
theorem reset_idempotent (m : Machine) :
    motherboard_reset (motherboard_reset m) = motherboard_reset m := by
  simp only [motherboard_reset, motherboard_reset_acia, cpu_reset_eq]

/-- C7: writes anywhere in the two ROM windows (0x8000–0xEFFF and
0xF800–0xFFFF) are silently discarded — the whole machine state,
including RAM, ROM and the ACIA, is unchanged — and an access that
decodes to no device returns 0xFF on read and is a no-op on write.  In
this address map the only such accesses are the ACIA-deselected ones
(bit 11 of the address set); note that every address the bus routes to
the ACIA (0xF000–0xF7FF) in fact has bit 11 clear, so the deselected
case is stated on the device function itself. -/
theorem rom_write_discard_unmapped_inert :
    (∀ (m : Machine) (a d : Nat),
        (0x8000 ≤ a ∧ a ≤ 0xEFFF) ∨ (0xF800 ≤ a ∧ a ≤ 0xFFFF) →
        motherboard_writebyte m a d = m) ∧
    (∀ (ready : Bool) (key : Nat) (s : MC6850) (a : Nat), a &&& 0x0800 ≠ 0 →
        mc6850_readbyte ready key s a = (0xFF, s, false)) ∧
    (∀ (s : MC6850) (a d : Nat), a &&& 0x0800 ≠ 0 →
        mc6850_writebyte s a d = (s, none)) := by
  refine ⟨?_, ?_, ?_⟩
  · intro m a d h
    unfold motherboard_writebyte
    rcases h with ⟨h1, h2⟩ | ⟨h1, h2⟩ <;> split_ifs <;> first | rfl | omega
  · intro ready key s a h
    unfold mc6850_readbyte
    rw [if_neg h]
  · intro s a d h
    unfold mc6850_writebyte
    rw [if_neg h]

/-- C8: for every address the bus routes to the ACIA (bit 11 clear):
with address bit 0 clear, a read consults the keyboard-readiness
predicate, sets bit 0 of SR when it reports ready, and returns SR; with
address bit 0 set, a read pulls one byte from the keyboard source into
RDR, clears bit 0 of SR, and returns that byte. -/
theorem acia_read_registers (a : Nat) (s : MC6850) (ready : Bool) (key : Nat)
    (h1 : 0xF000 ≤ a) (h2 : a ≤ 0xF7FF) (h3 : a &&& 0x0800 = 0) :
    (a &&& 0x0001 = 0 →
      mc6850_readbyte ready key s a =
        (if ready then s.SR ||| 0x01 else s.SR,
         { s with SR := if ready then s.SR ||| 0x01 else s.SR }, false)) ∧
    (a &&& 0x0001 = 1 →
      mc6850_readbyte ready key s a =
        (key, { s with RDR := key, SR := s.SR &&& 0xFE }, true)) := by
  constructor
  · intro h4
    unfold mc6850_readbyte
    rw [if_pos h3, if_pos h4]
  · intro h4
    unfold mc6850_readbyte
    rw [if_pos h3, if_neg (by omega)]

theorem nibble_ops : ∀ x, x < 256 →
    x &&& 15 = x % 16 ∧ x &&& 240 = 16 * (x / 16) ∧ x >>> 4 = x / 16 := by
  decide

theorem low_nibble_small : ∀ x, x < 32 → x &&& 15 = x % 16 := by
  decide

theorem high_nibble_mid : ∀ x, x < 1024 → x &&& 240 = 16 * (x / 16 % 16) := by
  decide

theorem shift8_mid : ∀ x, x < 1024 → x >>> 8 = x / 256 := by
  decide

theorem lor_nibbles : ∀ l, l < 16 → ∀ h, h < 256 → h % 16 = 0 → l ||| h = h + l := by
  decide

/-- C4: with D set, for all operands `a`, `b` in 0x00..=0x99 whose two
nibbles are valid BCD digits and either initial carry, `ADC` leaves in
A the packed-BCD representation of `(dec a + dec b + cin) mod 100` and
sets C exactly when `dec a + dec b + cin` is at least 100, where `dec`
reads a byte as a two-digit decimal number. -/
theorem adc_decimal_round_trip :
    ∀ a, a ≤ 0x99 → ∀ b, b ≤ 0x99 → isBCD a = true → isBCD b = true → ∀ cin : Bool,
      (ADC (adcTestMachine a b cin) 0).A
        = toBCD ((fromBCD a + fromBCD b + (if cin then 1 else 0)) % 100) ∧
      ((ADC (adcTestMachine a b cin) 0).C_Flag = true ↔
        100 ≤ fromBCD a + fromBCD b + (if cin then 1 else 0)) := by
  intro a ha b hb hba hbb cin
  have ha256 : a < 256 := by omega
  have hb256 : b < 256 := by omega
  obtain ⟨hal, hah, has⟩ := nibble_ops a ha256
  obtain ⟨hbl, hbh, hbs⟩ := nibble_ops b hb256
  have hAx := of_decide_eq_true hba
  have hBx := of_decide_eq_true hbb
  rw [hal, has] at hAx
  rw [hbl, hbs] at hBx
  have hA : (ADC (adcTestMachine a b cin) 0).A =
      (let c : Nat := if cin then 1 else 0
       let dec_l := (a &&& 15) + (b &&& 15) + c
       let dec_h := (a &&& 240) + (b &&& 240)
       let adj := decide (9 < dec_l)
       let dec_h1 := if adj then dec_h + 16 else dec_h
       let dec_l1 := if adj then dec_l + 6 else dec_l
       let dec_h2 := if 144 < dec_h1 then dec_h1 + 96 else dec_h1
       (dec_l1 &&& 15) ||| (dec_h2 &&& 240)) := rfl
  have hC : (ADC (adcTestMachine a b cin) 0).C_Flag =
      (let c : Nat := if cin then 1 else 0
       let dec_l := (a &&& 15) + (b &&& 15) + c
       let dec_h := (a &&& 240) + (b &&& 240)
       let adj := decide (9 < dec_l)
       let dec_h1 := if adj then dec_h + 16 else dec_h
       let dec_h2 := if 144 < dec_h1 then dec_h1 + 96 else dec_h1
       decide (dec_h2 >>> 8 ≠ 0)) := rfl
  rw [hA, hC]
  clear hA hC
  simp only [fromBCD, toBCD]
  rw [hal, hah, has, hbl, hbh, hbs]
  clear hal hah has hbl hbh hbs hba hbb
  obtain ⟨hA9l, hA9h⟩ := hAx
  obtain ⟨hB9l, hB9h⟩ := hBx
  generalize hcv : (if cin then (1 : Nat) else 0) = c
  have hc1 : c ≤ 1 := by
    rw [← hcv]
    cases cin <;> simp
  clear hcv
  generalize hea : a / 16 = ea
  rw [hea] at hA9h
  generalize hal2 : a % 16 = al
  rw [hal2] at hA9l
  generalize heb : b / 16 = eb
  rw [heb] at hB9h
  generalize hbl2 : b % 16 = bl
  rw [hbl2] at hB9l
  clear hea hal2 heb hbl2 ha hb ha256 hb256
  clear a b cin
  split_ifs <;>
    (simp only [decide_eq_true_eq] at *
     constructor
     · rw [low_nibble_small _ (by omega), high_nibble_mid _ (by omega),
         lor_nibbles _ (by omega) _ (by omega) (by omega)]
       omega
     · rw [shift8_mid _ (by omega)]
       omega)

/-- C4 witness: the example from the spec, `SED; LDA #$15; CLC; ADC #$27`:
0x15 plus 0x27 with carry clear gives A = 0x42 and C clear. -/
theorem adc_decimal_round_trip_witness :
    (ADC (adcTestMachine 0x15 0x27 false) 0).A
      = toBCD ((fromBCD 0x15 + fromBCD 0x27 + (if false then 1 else 0)) % 100) ∧
    ((ADC (adcTestMachine 0x15 0x27 false) 0).C_Flag = true ↔
      100 ≤ fromBCD 0x15 + fromBCD 0x27 + (if false then 1 else 0)) :=
  adc_decimal_round_trip 0x15 (by decide) 0x27 (by decide) (by decide) (by decide) false

theorem fetch_exists (m : Machine) :
    ∃ v m2, fetch m = (v, m2) ∧ m2.cycles = m.cycles ∧ m2.PC = (m.PC + 1) % 65536 ∧
      m2.RAM = m.RAM ∧ m2.ROM = m.ROM ∧ m2.SP = m.SP := by
  obtain ⟨v, ac, kb, hf⟩ := fetch_shape m
  exact ⟨v, _, hf, rfl, rfl, rfl, rfl, rfl⟩

theorem BXX_cycles (m : Machine) (c : Bool) :
    (BXX m c).cycles =
      m.cycles +
        (if c then
          (if ((m.PC + 1) % 65536 +
                (if (read_byte m m.PC).1 < 0x80 then (read_byte m m.PC).1
                 else (read_byte m m.PC).1 + 0xFF00)) % 65536 &&& 0xFF00 =
              ((m.PC + 1) % 65536) &&& 0xFF00
           then 1 else 2)
         else 0) := by
  have hrc : (read_byte m m.PC).2.cycles = m.cycles := read_cycles_unchanged m m.PC
  cases c
  · simp only [BXX, Bool.false_eq_true, if_false]
    simpa using hrc
  · simp only [BXX, if_true]
    split_ifs <;> simp_all

theorem dispatch_BPL (m : Machine) : dispatch m 0x10 = addCycles (BXX m (!m.N_Flag)) 2 := rfl

theorem dispatch_BMI (m : Machine) : dispatch m 0x30 = addCycles (BXX m m.N_Flag) 2 := rfl

theorem dispatch_BVC (m : Machine) : dispatch m 0x50 = addCycles (BXX m (!m.V_Flag)) 2 := rfl

theorem dispatch_BVS (m : Machine) : dispatch m 0x70 = addCycles (BXX m m.V_Flag) 2 := rfl

theorem dispatch_BCC (m : Machine) : dispatch m 0x90 = addCycles (BXX m (!m.C_Flag)) 2 := rfl

theorem dispatch_BCS (m : Machine) : dispatch m 0xB0 = addCycles (BXX m m.C_Flag) 2 := rfl

theorem dispatch_BNE (m : Machine) : dispatch m 0xD0 = addCycles (BXX m (!m.Z_Flag)) 2 := rfl

theorem dispatch_BEQ (m : Machine) : dispatch m 0xF0 = addCycles (BXX m m.Z_Flag) 2 := rfl

set_option maxHeartbeats 1600000 in
/-- C5: for every conditional branch opcode (BPL, BMI, BVC, BVS, BCC,
BCS, BNE, BEQ) executed by a step with no IRQ service, the step costs
exactly 2 cycles when the condition is false, 3 when it is true and the
target lies in the same 256-byte page as the PC after the operand
fetch, and 4 when the high bytes of the target and of that PC differ. -/
theorem branch_cycle_accounting (m : Machine)
    (hirq : ¬(m.IRQ_PIN_LEVEL = 0 ∧ m.I_Flag = false))
    (hop : (fetch { m with cycles := 0 }).1 ∈ branchOpcodes) :
    let f := fetch { m with cycles := 0 }
    let r := read_byte f.2 f.2.PC
    let pcb := (f.2.PC + 1) % 65536
    let tgt := (pcb + (if r.1 < 0x80 then r.1 else r.1 + 0xFF00)) % 65536
    (cpu_execute m).1 =
      if branchCond f.1 f.2 then (if tgt &&& 0xFF00 = pcb &&& 0xFF00 then 3 else 4) else 2 := by
  have hirq' : ¬(({ m with cycles := 0 } : Machine).IRQ_PIN_LEVEL = 0 ∧
      ({ m with cycles := 0 } : Machine).I_Flag = false) := hirq
  obtain ⟨v, m2, hf, hcy, hpc, hram, hrom, hsp⟩ := fetch_exists { m with cycles := 0 }
  have hcy0 : m2.cycles = 0 := hcy
  have hv : v ∈ branchOpcodes := by rw [hf] at hop; exact hop
  dsimp only
  simp only [cpu_execute]
  rw [irqPhase_not _ hirq', hf]
  dsimp only
  fin_cases hv <;>
    (simp only [dispatch_BPL, dispatch_BMI, dispatch_BVC, dispatch_BVS, dispatch_BCC,
       dispatch_BCS, dispatch_BNE, dispatch_BEQ, branchCond, addCycles]
     rw [BXX_cycles, hcy0]
     split_ifs <;> omega)

theorem dispatch_JSR (m : Machine) :
    dispatch m 0x20 = addCycles (JSR (absolute m).2 (absolute m).1) 6 := rfl

theorem dispatch_RTS (m : Machine) : dispatch m 0x60 = addCycles (RTS m) 6 := rfl

/-- C6: `JSR` pushes `PC - 1` where PC points just past its two operand
bytes (high byte first), and `RTS` pops that word and adds 1.  In the
scenario from the spec (`20 06 00 00 00 00 60` at 0): after the JSR the stack
holds 0x00 then 0x02, SP decreased by 2, and after the matching RTS the
PC is 0x0003, the instruction following the JSR. -/
theorem jsr_rts_linkage :
    (∀ m : Machine, ¬(m.IRQ_PIN_LEVEL = 0 ∧ m.I_Flag = false) → m.SP < 256 →
      (fetch { m with cycles := 0 }).1 = 0x20 →
      (cpu_execute m).2.SP = (m.SP + 254) % 256 ∧
      (cpu_execute m).2.RAM (256 + m.SP) = ((m.PC + 2) % 65536) >>> 8 &&& 0xFF ∧
      (cpu_execute m).2.RAM (256 + (m.SP + 255) % 256) = (m.PC + 2) % 65536 &&& 0xFF ∧
      (cpu_execute m).2.PC = (fetch16 (fetch { m with cycles := 0 }).2).1) ∧
    (∀ m : Machine, ¬(m.IRQ_PIN_LEVEL = 0 ∧ m.I_Flag = false) → m.SP < 256 →
      (fetch { m with cycles := 0 }).1 = 0x60 →
      (cpu_execute m).2.PC =
        (word (m.RAM (256 + (m.SP + 2) % 256)) (m.RAM (256 + (m.SP + 1) % 256)) + 1) % 65536) ∧
    ((cpu_execute jsrMachine).2.SP = 0xFB ∧
     (cpu_execute jsrMachine).2.RAM 0x1FD = 0x00 ∧
     (cpu_execute jsrMachine).2.RAM 0x1FC = 0x02 ∧
     jsrMachine.SP - (cpu_execute jsrMachine).2.SP = 2 ∧
     (cpu_execute jsrMachine).2.PC = 0x0006 ∧
     (cpu_execute (cpu_execute jsrMachine).2).2.PC = 0x0003) := by
  refine ⟨?_, ?_, ?_⟩
  · intro m hirq hSP hop
    have hirq' : ¬(({ m with cycles := 0 } : Machine).IRQ_PIN_LEVEL = 0 ∧
        ({ m with cycles := 0 } : Machine).I_Flag = false) := hirq
    obtain ⟨v, m2, hf, hcy, hpc, hram, hrom, hsp⟩ := fetch_exists { m with cycles := 0 }
    have hv : v = 0x20 := by rw [hf] at hop; exact hop
    subst hv
    obtain ⟨o1, m3, hf3, hcy3, hpc3, hram3, hrom3, hsp3⟩ := fetch_exists m2
    obtain ⟨o2, m4, hf4, hcy4, hpc4, hram4, hrom4, hsp4⟩ := fetch_exists m3
    have hf16 : fetch16 m2 = (word o2 o1, m4) := by
      simp only [fetch16]
      rw [hf3, hf4]
    have hSP2 : m2.SP = m.SP := hsp
    have hSP4 : m4.SP = m.SP := by rw [hsp4, hsp3, hSP2]
    have hRAM4 : m4.RAM = m.RAM := by
      rw [hram4, hram3]
      exact hram
    have hd : (m4.PC + 65535) % 65536 = (m.PC + 2) % 65536 := by
      rw [hpc4, hpc3, hpc]
      dsimp only
      omega
    simp only [cpu_execute]
    rw [irqPhase_not _ hirq', hf]
    dsimp only
    rw [dispatch_JSR, show absolute m2 = fetch16 m2 from rfl, hf16]
    dsimp only
    simp only [JSR, push16, addCycles]
    rw [push2_eq _ _ _ (by rw [hSP4]; exact hSP)]
    dsimp only
    rw [hSP4, hRAM4, hd]
    refine ⟨rfl, ?_, ?_, ?_⟩
    · rw [if_neg (by omega)]
      exact if_pos rfl
    · exact if_pos rfl
    · trivial
  · intro m hirq hSP hop
    have hirq' : ¬(({ m with cycles := 0 } : Machine).IRQ_PIN_LEVEL = 0 ∧
        ({ m with cycles := 0 } : Machine).I_Flag = false) := hirq
    obtain ⟨v, m2, hf, hcy, hpc, hram, hrom, hsp⟩ := fetch_exists { m with cycles := 0 }
    have hv : v = 0x60 := by rw [hf] at hop; exact hop
    subst hv
    have hRAM2 : m2.RAM = m.RAM := hram
    have hSP2 : m2.SP = m.SP := hsp
    simp only [cpu_execute]
    rw [irqPhase_not _ hirq', hf]
    dsimp only
    rw [dispatch_RTS]
    simp only [RTS, pop16, addCycles]
    rw [pop_eq m2]
    dsimp only
    rw [pop_eq _]
    dsimp only
    rw [hRAM2, hSP2]
    rw [show ((m.SP + 1) % 256 + 1) % 256 = (m.SP + 2) % 256 by omega]
  · exact ⟨by decide, by decide, by decide, by decide, by decide, by decide⟩

/-- C1 witness: the amended theorem instantiated at
`irqPendingMachine`. -/
theorem irq_service_then_execute_witness :
    cpu_execute irqPendingMachine =
      (let f := fetch (do_irq { irqPendingMachine with cycles := 0 } IRQ_VECTOR)
       ((dispatch f.2 f.1).cycles, dispatch f.2 f.1)) ∧
    (do_irq { irqPendingMachine with cycles := 0 } IRQ_VECTOR).I_Flag = true ∧
    (do_irq { irqPendingMachine with cycles := 0 } IRQ_VECTOR).PC =
      word (irqPendingMachine.ROM 0x7FFF) (irqPendingMachine.ROM 0x7FFE) ∧
    (do_irq { irqPendingMachine with cycles := 0 } IRQ_VECTOR).cycles = 7 ∧
    (do_irq { irqPendingMachine with cycles := 0 } IRQ_VECTOR).SP =
      (irqPendingMachine.SP + 253) % 256 ∧
    (do_irq { irqPendingMachine with cycles := 0 } IRQ_VECTOR).RAM
        (256 + irqPendingMachine.SP) = (irqPendingMachine.PC >>> 8) &&& 0xFF ∧
    (do_irq { irqPendingMachine with cycles := 0 } IRQ_VECTOR).RAM
        (256 + (irqPendingMachine.SP + 255) % 256) = irqPendingMachine.PC &&& 0xFF ∧
    (do_irq { irqPendingMachine with cycles := 0 } IRQ_VECTOR).RAM
        (256 + (irqPendingMachine.SP + 254) % 256) = get_P irqPendingMachine ∧
    get_P irqPendingMachine &&& 0x10 = 0 :=
  irq_service_then_execute irqPendingMachine (by decide) (by decide) (by decide)

/-- C2 witness: the amended theorem instantiated at `nmiMachine`. -/
theorem nmi_immediate_entry_witness :
    cpu_nmi nmiMachine = do_irq nmiMachine NMI_VECTOR ∧
    (cpu_nmi nmiMachine).I_Flag = true ∧
    (cpu_nmi nmiMachine).PC = word (nmiMachine.ROM 0x7FFB) (nmiMachine.ROM 0x7FFA) ∧
    (cpu_nmi nmiMachine).cycles = nmiMachine.cycles + 7 ∧
    (cpu_nmi nmiMachine).SP = (nmiMachine.SP + 253) % 256 ∧
    (cpu_nmi nmiMachine).RAM (256 + nmiMachine.SP) = (nmiMachine.PC >>> 8) &&& 0xFF ∧
    (cpu_nmi nmiMachine).RAM (256 + (nmiMachine.SP + 255) % 256) = nmiMachine.PC &&& 0xFF ∧
    (cpu_nmi nmiMachine).RAM (256 + (nmiMachine.SP + 254) % 256) = get_P nmiMachine ∧
    get_P nmiMachine &&& 0x10 = 0 ∧
    (∀ m' : Machine, cpu_execute m' = cpu_execute { m' with cycles := 0 }) :=
  nmi_immediate_entry nmiMachine (by decide)

/-- C3 witness: the theorem instantiated at `illegalMachine` (every RAM
byte is the undocumented opcode 0x02, the reset vector reads 0x1234). -/
theorem illegal_fetch_resets_witness :
    (cpu_execute illegalMachine).2.diag =
        (irqPhase { illegalMachine with cycles := 0 }).diag ++
          [((fetch (irqPhase { illegalMachine with cycles := 0 })).1,
            (irqPhase { illegalMachine with cycles := 0 }).PC)] ∧
    (cpu_execute illegalMachine).2.A = 0 ∧ (cpu_execute illegalMachine).2.X = 0 ∧
    (cpu_execute illegalMachine).2.Y = 0 ∧ (cpu_execute illegalMachine).2.SP = 0xFD ∧
    (cpu_execute illegalMachine).2.I_Flag = true ∧
    (cpu_execute illegalMachine).2.PC =
      word (illegalMachine.ROM 0x7FFD) (illegalMachine.ROM 0x7FFC) :=
  illegal_fetch_resets illegalMachine (by decide) (by decide)
    (by
      intro a
      unfold illegalMachine baseMachine
      dsimp only
      split_ifs <;> decide)
    (by decide)

/-- C5 witness: the theorem instantiated at `branchMachine` (`BEQ +16`
at 0x00F2 with Z set), whose step costs 4 cycles. -/
theorem branch_cycle_accounting_witness :
    (let f := fetch { branchMachine with cycles := 0 }
     let r := read_byte f.2 f.2.PC
     let pcb := (f.2.PC + 1) % 65536
     let tgt := (pcb + (if r.1 < 0x80 then r.1 else r.1 + 0xFF00)) % 65536
     (cpu_execute branchMachine).1 =
       if branchCond f.1 f.2 then (if tgt &&& 0xFF00 = pcb &&& 0xFF00 then 3 else 4) else 2) ∧
    (cpu_execute branchMachine).1 = 4 :=
  ⟨branch_cycle_accounting branchMachine (by decide) (by decide), by decide⟩

/-- C6 witness: both general parts instantiated on the spec scenario:
the JSR at `jsrMachine` and the RTS at the state the JSR step leaves
behind. -/
theorem jsr_rts_linkage_witness :
    ((cpu_execute jsrMachine).2.SP = (jsrMachine.SP + 254) % 256 ∧
     (cpu_execute jsrMachine).2.RAM (256 + jsrMachine.SP) =
       ((jsrMachine.PC + 2) % 65536) >>> 8 &&& 0xFF ∧
     (cpu_execute jsrMachine).2.RAM (256 + (jsrMachine.SP + 255) % 256) =
       (jsrMachine.PC + 2) % 65536 &&& 0xFF ∧
     (cpu_execute jsrMachine).2.PC = (fetch16 (fetch { jsrMachine with cycles := 0 }).2).1) ∧
    (cpu_execute (cpu_execute jsrMachine).2).2.PC =
      (word ((cpu_execute jsrMachine).2.RAM (256 + ((cpu_execute jsrMachine).2.SP + 2) % 256))
            ((cpu_execute jsrMachine).2.RAM (256 + ((cpu_execute jsrMachine).2.SP + 1) % 256))
        + 1) % 65536 :=
  ⟨jsr_rts_linkage.1 jsrMachine (by decide) (by decide) (by decide),
   jsr_rts_linkage.2.1 (cpu_execute jsrMachine).2 (by decide) (by decide) (by decide)⟩

/-- C7 witness: a ROM-window write, an ACIA-deselected read and an
ACIA-deselected write at concrete inputs. -/
theorem rom_write_discard_unmapped_inert_witness :
    motherboard_writebyte baseMachine 0x8000 0x42 = baseMachine ∧
    mc6850_readbyte false 0 mc6850_reset 0x0800 = (0xFF, mc6850_reset, false) ∧
    mc6850_writebyte mc6850_reset 0x0800 0x42 = (mc6850_reset, none) :=
  ⟨rom_write_discard_unmapped_inert.1 baseMachine 0x8000 0x42 (Or.inl (by decide)),
   rom_write_discard_unmapped_inert.2.1 false 0 mc6850_reset 0x0800 (by decide),
   rom_write_discard_unmapped_inert.2.2 mc6850_reset 0x0800 0x42 (by decide)⟩

/-- C8 witness: the theorem instantiated at address 0xF000 with a ready
keyboard whose next byte is 0x41. -/
theorem acia_read_registers_witness :
    (0xF000 &&& 0x0001 = 0 →
      mc6850_readbyte true 0x41 mc6850_reset 0xF000 =
        (if true then mc6850_reset.SR ||| 0x01 else mc6850_reset.SR,
         { mc6850_reset with
             SR := if true then mc6850_reset.SR ||| 0x01 else mc6850_reset.SR }, false)) ∧
    (0xF000 &&& 0x0001 = 1 →
      mc6850_readbyte true 0x41 mc6850_reset 0xF000 =
        (0x41, { mc6850_reset with RDR := 0x41, SR := mc6850_reset.SR &&& 0xFE }, true)) :=
  acia_read_registers 0xF000 mc6850_reset true 0x41 (by decide) (by decide) (by decide)

/-- C10 witness: the theorem instantiated at `illegalMachine`. -/
theorem illegal_step_zero_cycles_witness :
    (cpu_execute illegalMachine).1 = 0 :=
  illegal_step_zero_cycles illegalMachine (by decide) (by decide)
